import Mathlib

/-!
Verification of the realtime connection / channel broadcast manager
(services/realtime/main.py): a shallow embedding of its state and
operations, and proofs about them.

Python dictionaries are modelled as association lists with unique keys
kept in insertion order, Python sets as duplicate-free lists, machine
time as natural-number seconds, the websocket transport as an oracle
saying whether a send to a given connection succeeds, and exceptions as
an explicit `Except` result.  The external store (per-channel capped
message lists and last-activity timestamps) is part of the state; its
calls are assumed not to fail, matching the spec's view of persistence
as best-effort.  JSON (de)serialization is abstracted: a stored entry is
either a decodable message or an undecodable blob.
-/

namespace Realtime

/-! ### Dictionaries as association lists -/

/-- Lookup in an association list (Python `dict.get`). -/
def mget {α : Type} (m : List (String × α)) (k : String) : Option α :=
  match m with
  | [] => none
  | (k1, v) :: rest => if k1 = k then some v else mget rest k

/-- Assignment `m[k] = v`: replace in place, or append when absent. -/
def mset {α : Type} (m : List (String × α)) (k : String) (v : α) : List (String × α) :=
  match m with
  | [] => [(k, v)]
  | (k1, v1) :: rest => if k1 = k then (k, v) :: rest else (k1, v1) :: mset rest k v

/-- Deletion `del m[k]`. -/
def mdel {α : Type} (m : List (String × α)) (k : String) : List (String × α) :=
  match m with
  | [] => []
  | (k1, v1) :: rest => if k1 = k then mdel rest k else (k1, v1) :: mdel rest k

/-! ### Python sets as duplicate-free lists -/

/-- Python `set.add`. -/
def sadd (s : List String) (x : String) : List String :=
  if x ∈ s then s else x :: s

/-- Python `set.discard`. -/
def sdiscard (s : List String) (x : String) : List String :=
  s.filter (fun y => y ≠ x)

/-- Python `set.update` (union in place). -/
def sunion (a b : List String) : List String :=
  a ++ b.filter (fun x => x ∉ a)

/-- Python `&` on sets. -/
def sinter (a b : List String) : List String :=
  a.filter (fun x => x ∈ b)

/-- Python `-` on sets. -/
def sdiff (a b : List String) : List String :=
  a.filter (fun x => x ∉ b)

/-! ### Data model (`Config`, messages, connections, manager state) -/

/-- Configuration values read from the environment (class `Config`). -/
structure Config where
  MAX_CONNECTIONS_PER_USER : Nat := 10
  MAX_MESSAGE_SIZE : Nat := 64 * 1024
  HEARTBEAT_INTERVAL : Nat := 30
  CONNECTION_TIMEOUT : Nat := 300
  MAX_MESSAGES_PER_CHANNEL : Nat := 1000
deriving DecidableEq

/-- Message payloads are opaque structured values; modelled as strings. -/
abbrev Payload := String

/-- An outbound or persisted message dictionary.  Only the fields the
manager itself reads or writes are modelled. -/
structure Msg where
  type : String
  channel : Option String := none
  event : Option String := none
  payload : Option Payload := none
  message_id : Option String := none
  connection_id : Option String := none
  timestamp : Nat := 0
deriving DecidableEq

/-- A raw entry of the external store's per-channel message list:
either a blob that deserializes to a message, or an undecodable blob
(`json.loads` raises on it). -/
abbrev RawEntry := Option Msg

/-- Per-channel subscription configuration
(`subscription.config.get ("send_history", False)`). -/
structure SubConfig where
  send_history : Bool := false
deriving DecidableEq

/-- The `ChannelSubscription` pydantic model. -/
structure ChannelSubscription where
  channel : String
  event : String := "*"
  config : SubConfig := {}
deriving DecidableEq

/-- The `BroadcastMessage` pydantic model. -/
structure BroadcastMessage where
  channel : String
  event : String
  payload : Payload
  exclude_user_ids : Option (List String) := none
  include_user_ids : Option (List String) := none
  persist : Bool := true
deriving DecidableEq

/-- The mutable per-connection state of a `WebSocketConnection`. -/
structure WSConn where
  user_id : Option String := none
  last_seen : Nat := 0
  subscribed_channels : List String := []
  channel_configs : List (String × SubConfig) := []
deriving DecidableEq

/-- The shared state: the `ConnectionManager` maps plus the external
store's per-channel message lists and last-activity timestamps. -/
structure MState where
  active_connections : List (String × WSConn) := []
  user_connections : List (String × List String) := []
  channel_subscriptions : List (String × List String) := []
  channelMessages : List (String × List RawEntry) := []
  lastActivity : List (String × Nat) := []
deriving DecidableEq

/-- The environment of one operation: the current wall-clock time, the
fresh id the uuid generator yields, and an oracle saying whether a
transport send to a given connection id succeeds. -/
structure Env where
  now : Nat := 0
  freshId : String := "id"
  sendOk : String → Bool := fun _ => true

/-- Error outcomes (Python exceptions) distinguished by the model. -/
inductive RTError where
  | CapacityExceeded
  | UnknownConnection
  | DeliveryFailure
  | ProtocolViolation
  | MalformedFrame
  | Disconnected
deriving DecidableEq

/-- A delivery event: a message handed to the transport for a
connection id. -/
abbrev Send := String × Msg

/-- Channel subscriber set: `self.channel_subscriptions.get (channel, set())`. -/
def chanSubs (st : MState) (ch : String) : List String :=
  (mget st.channel_subscriptions ch).getD []

/-- User connection set: `self.user_connections.get (user_id, set())`. -/
def userConns (st : MState) (u : String) : List String :=
  (mget st.user_connections u).getD []

/-- Replace a connection record in the primary map. -/
def setConn (st : MState) (cid : String) (c : WSConn) : MState :=
  { st with active_connections := mset st.active_connections cid c }

/-- Refresh a connection's `last_seen` (the write `self.last_seen =
datetime.now()` inside `send_message` / `receive_message`). -/
def updateLastSeen (st : MState) (cid : String) (t : Nat) : MState :=
  match mget st.active_connections cid with
  | none => st
  | some c => setConn st cid { c with last_seen := t }

/-- Model of `WebSocketConnection.send_message`: on transport success
the message is delivered and the connection's `last_seen` is refreshed;
on failure the exception is re-raised (the `Bool` result is `false`). -/
def sendMessage (env : Env) (st : MState) (cid : String) (m : Msg) :
    MState × List Send × Bool :=
  if env.sendOk cid then
    (updateLastSeen st cid env.now, [(cid, m)], true)
  else
    (st, [], false)

/-! ### Fixed message shapes built by the manager -/

/-- Admission acknowledgment sent by `connect`. -/
def connectionAckMsg (cid : String) (t : Nat) : Msg :=
  { type := "connection_ack", connection_id := some cid, timestamp := t }

/-- Acknowledgment sent by `subscribe_channel`. -/
def subAckMsg (ch : String) (t : Nat) : Msg :=
  { type := "subscription_ack", channel := some ch, timestamp := t }

/-- Acknowledgment sent by `unsubscribe_channel`. -/
def unsubAckMsg (ch : String) (t : Nat) : Msg :=
  { type := "unsubscription_ack", channel := some ch, timestamp := t }

/-- Terminal marker sent after history replay. -/
def historyEndMsg (ch : String) (t : Nat) : Msg :=
  { type := "history_end", channel := some ch, timestamp := t }

/-- Periodic probe pushed by the heartbeat loop. -/
def heartbeatMsg (t : Nat) : Msg :=
  { type := "heartbeat", timestamp := t }

/-- Reply to a `ping` frame. -/
def pongMsg (t : Nat) : Msg :=
  { type := "pong", timestamp := t }

/-- Error frame sent back by the endpoint loop's generic handler; the
`message: str(e)` body text is abstracted away. -/
def errorMsg (t : Nat) : Msg :=
  { type := "error", timestamp := t }

/-! ### Connection registry operations -/

/-- Model of `ConnectionManager.connect`: the per-user cap is checked
before any registration; on success the connection is inserted into the
primary map and the per-user set and the admission acknowledgment is
sent (a failing acknowledgment send re-raises after registration). -/
def connect (cfg : Config) (env : Env) (st : MState) (user_id : Option String) :
    MState × List Send × Except RTError String :=
  let connection_id := env.freshId
  let capHit :=
    match user_id with
    | some u => decide (cfg.MAX_CONNECTIONS_PER_USER ≤ (userConns st u).length)
    | none => false
  if capHit then
    (st, [], .error .CapacityExceeded)
  else
    let conn : WSConn := { user_id := user_id, last_seen := env.now }
    let st1 := { st with active_connections := mset st.active_connections connection_id conn }
    let st2 :=
      match user_id with
      | some u =>
        { st1 with user_connections := mset st1.user_connections u (sadd (userConns st1 u) connection_id) }
      | none => st1
    let r := sendMessage env st2 connection_id (connectionAckMsg connection_id env.now)
    (r.1, r.2.1, if r.2.2 then .ok connection_id else .error .DeliveryFailure)

/-- Model of the per-message body of `_send_channel_history`: decode
each raw entry (`json.loads`), re-tag it as `type = "history"` and send
it; a decode or send failure is logged and skipped. -/
def sendHistoryMsgs (env : Env) (cid : String) :
    List RawEntry → MState → MState × List Send
  | [], st => (st, [])
  | raw :: rest, st =>
    match raw with
    | some m =>
      let r := sendMessage env st cid { m with type := "history" }
      let r2 := sendHistoryMsgs env cid rest r.1
      (r2.1, r.2.1 ++ r2.2)
    | none => sendHistoryMsgs env cid rest st

/-- Model of `ConnectionManager._send_channel_history`: read the 50
newest stored entries (`lrange key 0 49` on a list whose head is the
newest entry), reverse to oldest-first, replay them, then send the
`history_end` marker; nothing here raises. -/
def sendChannelHistory (env : Env) (st : MState) (cid ch : String) :
    MState × List Send :=
  let messages := ((mget st.channelMessages ch).getD []).take 50
  let messages := messages.reverse
  let r := sendHistoryMsgs env cid messages st
  let r2 := sendMessage env r.1 cid (historyEndMsg ch env.now)
  (r2.1, r.2 ++ r2.2.1)

/-- Model of `ConnectionManager.subscribe_channel`: fails on an
unknown connection id; otherwise adds the id to the channel's
subscriber set and the channel to the connection's own set, sends the
acknowledgment, and replays history when the config asks for it.  A
failing acknowledgment send re-raises before history replay. -/
def subscribeChannel (env : Env) (st : MState) (cid : String)
    (sub : ChannelSubscription) : MState × List Send × Except RTError Unit :=
  match mget st.active_connections cid with
  | none => (st, [], .error .UnknownConnection)
  | some conn =>
    let ch := sub.channel
    let st1 :=
      { st with channel_subscriptions := mset st.channel_subscriptions ch (sadd (chanSubs st ch) cid) }
    let conn1 :=
      { conn with subscribed_channels := sadd conn.subscribed_channels ch,
                  channel_configs := mset conn.channel_configs ch sub.config }
    let st2 := setConn st1 cid conn1
    let r := sendMessage env st2 cid (subAckMsg ch env.now)
    if r.2.2 then
      if sub.config.send_history then
        let rh := sendChannelHistory env r.1 cid ch
        (rh.1, r.2.1 ++ rh.2, .ok ())
      else (r.1, r.2.1, .ok ())
    else (r.1, r.2.1, .error .DeliveryFailure)

/-- The channel-map half of `unsubscribe_channel`: discard the id from
the channel's subscriber set when the channel has one, deleting the
entry when the set becomes empty. -/
def removeSub (st : MState) (ch cid : String) : MState :=
  match mget st.channel_subscriptions ch with
  | none => st
  | some s =>
    let s1 := sdiscard s cid
    if s1 = [] then { st with channel_subscriptions := mdel st.channel_subscriptions ch }
    else { st with channel_subscriptions := mset st.channel_subscriptions ch s1 }

/-- Model of `ConnectionManager.unsubscribe_channel`: a no-op on an
unknown connection id; otherwise removes the id from the channel's
subscriber set (deleting the entry when it becomes empty), removes the
channel from the connection's own set and config map, and sends the
acknowledgment (whose failure re-raises after the state updates). -/
def unsubscribeChannel (env : Env) (st : MState) (cid ch : String) :
    MState × List Send × Except RTError Unit :=
  match mget st.active_connections cid with
  | none => (st, [], .ok ())
  | some conn =>
    let st1 := removeSub st ch cid
    let conn1 :=
      { conn with subscribed_channels := sdiscard conn.subscribed_channels ch,
                  channel_configs := mdel conn.channel_configs ch }
    let st2 := setConn st1 cid conn1
    let r := sendMessage env st2 cid (unsubAckMsg ch env.now)
    (r.1, r.2.1, if r.2.2 then .ok () else .error .DeliveryFailure)

/-- The loop in `disconnect` over a snapshot of the connection's
subscribed channels; an exception from one unsubscribe aborts the
remaining iterations. -/
def unsubAll (env : Env) (cid : String) :
    List String → MState → MState × List Send × Except RTError Unit
  | [], st => (st, [], .ok ())
  | ch :: rest, st =>
    let r := unsubscribeChannel env st cid ch
    match r.2.2 with
    | .ok _ =>
      let r2 := unsubAll env cid rest r.1
      (r2.1, r.2.1 ++ r2.2.1, r2.2.2)
    | .error e => (r.1, r.2.1, .error e)

/-- The user-map half of `disconnect`: when the connection carries a
user id present in the user map, discard the connection id from that
user's set, deleting the set when it becomes empty. -/
def removeUserConn (st : MState) (user_id : Option String) (cid : String) : MState :=
  match user_id with
  | some u =>
    match mget st.user_connections u with
    | none => st
    | some s =>
      let s1 := sdiscard s cid
      if s1 = [] then { st with user_connections := mdel st.user_connections u }
      else { st with user_connections := mset st.user_connections u s1 }
  | none => st

/-- Model of `ConnectionManager.disconnect`: a no-op on an unknown id;
otherwise unsubscribes every channel in the connection's snapshot,
removes the id from its user's set (deleting the set when empty), and
removes the primary map entry.  An exception from an unsubscribe
acknowledgment aborts the remaining cleanup and re-raises. -/
def disconnect (env : Env) (st : MState) (cid : String) :
    MState × List Send × Except RTError Unit :=
  match mget st.active_connections cid with
  | none => (st, [], .ok ())
  | some conn =>
    let r := unsubAll env cid conn.subscribed_channels st
    match r.2.2 with
    | .error e => (r.1, r.2.1, .error e)
    | .ok _ =>
      let st2 := removeUserConn r.1 conn.user_id cid
      let st3 := { st2 with active_connections := mdel st2.active_connections cid }
      (st3, r.2.1, .ok ())

/-! ### Persistence and the broadcast engine -/

/-- Model of `ConnectionManager._persist_message`: `lpush` the encoded
message (head of the list is the newest entry), then `ltrim key 0
(MAX_MESSAGES_PER_CHANNEL - 1)`, then refresh the channel's
last-activity timestamp.  With a zero maximum the trim end index is
`-1`, which redis reads as the last element, keeping the whole list. -/
def persistMessage (cfg : Config) (env : Env) (st : MState) (ch : String) (m : Msg) :
    MState :=
  let old := (mget st.channelMessages ch).getD []
  let pushed : List RawEntry := some m :: old
  let trimmed :=
    if cfg.MAX_MESSAGES_PER_CHANNEL = 0 then pushed
    else pushed.take cfg.MAX_MESSAGES_PER_CHANNEL
  { st with channelMessages := mset st.channelMessages ch trimmed,
            lastActivity := mset st.lastActivity ch env.now }

/-- The include filter of `broadcast_to_channel`: the union over the
listed users of that user's current connections intersected with the
channel's subscribers. -/
def includeFilter (st : MState) (subscribers : List String) (l : List String) :
    List String :=
  l.foldl (fun filtered u => sunion filtered (sinter (userConns st u) subscribers)) []

/-- The exclude filter's union of the listed users' connections. -/
def excludedSet (st : MState) (l : List String) : List String :=
  l.foldl (fun excluded u => sunion excluded (userConns st u)) []

/-- The delivery loop of `broadcast_to_channel`: each target id still
present in the registry gets a send attempt; successes and failures are
counted, a missing id is skipped and counted as neither. -/
def deliverAll (env : Env) (m : Msg) :
    List String → MState → MState × List Send × Nat × Nat
  | [], st => (st, [], 0, 0)
  | cid :: rest, st =>
    match mget st.active_connections cid with
    | none => deliverAll env m rest st
    | some _ =>
      let r := sendMessage env st cid m
      let r2 := deliverAll env m rest r.1
      (r2.1, r.2.1 ++ r2.2.1,
        (if r.2.2 then 1 else 0) + r2.2.2.1,
        (if r.2.2 then 0 else 1) + r2.2.2.2)

/-- Result dictionary of `broadcast_to_channel`. -/
structure BroadcastResult where
  message_id : String
  sent_count : Nat
  failed_count : Nat
deriving DecidableEq

/-- The include stage of `broadcast_to_channel`'s filtering: narrow the
candidates to the listed users' connections; a list that is `None` or
empty is skipped, mirroring Python truthiness of
`if message.include_user_ids:`. -/
def applyIncludeFilter (st : MState) (subscribers : List String)
    (include_user_ids : Option (List String)) : List String :=
  match include_user_ids with
  | some l => if l = [] then subscribers else includeFilter st subscribers l
  | none => subscribers

/-- The exclude stage of `broadcast_to_channel`'s filtering: subtract
the listed users' connections; a `None` or empty list is skipped. -/
def applyExcludeFilter (st : MState) (subscribers : List String)
    (exclude_user_ids : Option (List String)) : List String :=
  match exclude_user_ids with
  | some l => if l = [] then subscribers else sdiff subscribers (excludedSet st l)
  | none => subscribers

/-- The subscriber-resolution block of `broadcast_to_channel`: read the
channel's subscriber set, then apply the include filter and then the
exclude filter. -/
def resolveSubscribers (st : MState) (channel : String)
    (include_user_ids exclude_user_ids : Option (List String)) : List String :=
  applyExcludeFilter st (applyIncludeFilter st (chanSubs st channel) include_user_ids)
    exclude_user_ids

/-- Model of `ConnectionManager.broadcast_to_channel`: build the
outbound message, persist it when asked, resolve the channel's
subscribers through the include and exclude filters, and deliver
best-effort. -/
def broadcastToChannel (cfg : Config) (env : Env) (st : MState)
    (message : BroadcastMessage) : MState × List Send × BroadcastResult :=
  let channel := message.channel
  let message_id := env.freshId
  let ws_message : Msg :=
    { type := "broadcast", channel := some channel, event := some message.event,
      payload := some message.payload, message_id := some message_id,
      timestamp := env.now }
  let st1 := if message.persist then persistMessage cfg env st channel ws_message else st
  let subscribers :=
    resolveSubscribers st1 channel message.include_user_ids message.exclude_user_ids
  let r := deliverAll env ws_message subscribers st1
  (r.1, r.2.1,
    { message_id := message_id, sent_count := r.2.2.1, failed_count := r.2.2.2 })

/-! ### Liveness supervisor -/

/-- Phase one of a `_heartbeat_loop` sweep over a snapshot of the
registry: push a heartbeat to each connection (success refreshes its
`last_seen`), then compare the sweep's start time against the
connection's current `last_seen`; a send failure or an elapsed time
above the timeout puts the id on the eviction list. -/
def sweepSends (cfg : Config) (env : Env) :
    List (String × WSConn) → MState → MState × List Send × List String
  | [], st => (st, [], [])
  | (cid, _) :: rest, st =>
    if env.sendOk cid then
      let st1 := updateLastSeen st cid env.now
      let last_seen := ((mget st1.active_connections cid).map WSConn.last_seen).getD 0
      let timedOut := decide (cfg.CONNECTION_TIMEOUT < env.now - last_seen)
      let r := sweepSends cfg env rest st1
      (r.1, (cid, heartbeatMsg env.now) :: r.2.1,
        if timedOut then cid :: r.2.2 else r.2.2)
    else
      let r := sweepSends cfg env rest st
      (r.1, r.2.1, cid :: r.2.2)

/-- Phase two of a sweep: disconnect every collected id; an exception
from one disconnect is caught by the loop's outer handler, ending the
sweep early. -/
def disconnectAll (env : Env) :
    List String → MState → MState × List Send × Except RTError Unit
  | [], st => (st, [], .ok ())
  | cid :: rest, st =>
    let r := disconnect env st cid
    match r.2.2 with
    | .ok _ =>
      let r2 := disconnectAll env rest r.1
      (r2.1, r.2.1 ++ r2.2.1, r2.2.2)
    | .error e => (r.1, r.2.1, .error e)

/-- One full sweep of `ConnectionManager._heartbeat_loop`; the third
component is the eviction list the sweep computed. -/
def heartbeatSweep (cfg : Config) (env : Env) (st : MState) :
    MState × List Send × List String :=
  let r := sweepSends cfg env st.active_connections st
  let disconnected_connections := r.2.2
  let r2 := disconnectAll env disconnected_connections r.1
  (r2.1, r.2.1 ++ r2.2.1, disconnected_connections)

/-! ### Inbound frame handling (`websocket_endpoint` loop body) -/

/-- A successfully parsed inbound message dictionary. -/
structure InMsg where
  type : Option String := none
  channel : Option String := none
  event : Option String := none
  payload : Option Payload := none
  config : SubConfig := {}
deriving DecidableEq

/-- One inbound frame: a transport-level close, or a text frame with
its byte size and its parse result (`none` means `json.loads` raises). -/
inductive Frame where
  | closed
  | text (size : Nat) (parsed : Option InMsg)
deriving DecidableEq

/-- Outcome of one iteration of the endpoint's read loop. -/
inductive StepOutcome where
  | continueLoop
  | breakLoop
  | raised
deriving DecidableEq

/-- Model of `WebSocketConnection.receive_message`: a frame above the
configured byte limit raises before parsing; a parse failure raises;
a successful receive refreshes `last_seen`. -/
def receiveMessage (cfg : Config) (env : Env) (st : MState) (cid : String)
    (fr : Frame) : MState × Except RTError InMsg :=
  match fr with
  | .closed => (st, .error .Disconnected)
  | .text size parsed =>
    if cfg.MAX_MESSAGE_SIZE < size then (st, .error .ProtocolViolation)
    else
      match parsed with
      | none => (st, .error .MalformedFrame)
      | some m => (updateLastSeen st cid env.now, .ok m)

/-- One iteration of the `websocket_endpoint` message loop: receive a
frame, dispatch on its type, catch any exception and answer it with an
error frame (whose own send failure propagates out of the loop).
`user_id` is the token-derived identity captured at admission. -/
def loopBody (cfg : Config) (env : Env) (st : MState) (cid : String)
    (user_id : Option String) (fr : Frame) : MState × List Send × StepOutcome :=
  let recv := receiveMessage cfg env st cid fr
  match recv.2 with
  | .error .Disconnected => (recv.1, [], .breakLoop)
  | .error _ =>
    let r := sendMessage env recv.1 cid (errorMsg env.now)
    (r.1, r.2.1, if r.2.2 then .continueLoop else .raised)
  | .ok message =>
    let st1 := recv.1
    match message.type with
    | none => (st1, [], .continueLoop)
    | some message_type =>
      if message_type = "subscribe" then
        match message.channel with
        | some channel =>
          if channel = "" then (st1, [], .continueLoop)
          else
            let sub : ChannelSubscription :=
              { channel := channel, event := (message.event).getD "*",
                config := message.config }
            let r := subscribeChannel env st1 cid sub
            match r.2.2 with
            | .ok _ => (r.1, r.2.1, .continueLoop)
            | .error _ =>
              let re := sendMessage env r.1 cid (errorMsg env.now)
              (re.1, r.2.1 ++ re.2.1, if re.2.2 then .continueLoop else .raised)
        | none => (st1, [], .continueLoop)
      else if message_type = "unsubscribe" then
        match message.channel with
        | some channel =>
          if channel = "" then (st1, [], .continueLoop)
          else
            let r := unsubscribeChannel env st1 cid channel
            match r.2.2 with
            | .ok _ => (r.1, r.2.1, .continueLoop)
            | .error _ =>
              let re := sendMessage env r.1 cid (errorMsg env.now)
              (re.1, r.2.1 ++ re.2.1, if re.2.2 then .continueLoop else .raised)
        | none => (st1, [], .continueLoop)
      else if message_type = "ping" then
        let r := sendMessage env st1 cid (pongMsg env.now)
        if r.2.2 then (r.1, r.2.1, .continueLoop)
        else
          let re := sendMessage env r.1 cid (errorMsg env.now)
          (re.1, r.2.1 ++ re.2.1, if re.2.2 then .continueLoop else .raised)
      else if message_type = "broadcast" then
        match user_id with
        | some _ =>
          match message.channel, message.event, message.payload with
          | some channel, some event, some payload =>
            if channel = "" ∨ event = "" ∨ payload = "" then (st1, [], .continueLoop)
            else
              let bm : BroadcastMessage :=
                { channel := channel, event := event, payload := payload }
              let r := broadcastToChannel cfg env st1 bm
              (r.1, r.2.1, .continueLoop)
          | _, _, _ => (st1, [], .continueLoop)
        | none => (st1, [], .continueLoop)
      else (st1, [], .continueLoop)

/-- One externally-invoked mutation of the subscription state. -/
inductive Op where
  | subscribe (cid : String) (sub : ChannelSubscription)
  | unsubscribe (cid ch : String)
  | disconnect (cid : String)

/-- Apply one operation, keeping only the state. -/
def applyOp (env : Env) (op : Op) (st : MState) : MState :=
  match op with
  | .subscribe cid sub => (subscribeChannel env st cid sub).1
  | .unsubscribe cid ch => (unsubscribeChannel env st cid ch).1
  | .disconnect cid => (disconnect env st cid).1

/-- Apply a sequence of operations, each under its own environment. -/
def applyOps (l : List (Env × Op)) (st : MState) : MState :=
  l.foldl (fun s p => applyOp p.1 p.2 s) st

/-! ### Concrete fixture states used by witnesses and counterexamples -/

/-- Three users, each with one connection, all subscribed to `room`. -/
def stC2 : MState :=
  { active_connections :=
      [("cA", { user_id := some "uA", subscribed_channels := ["room"] }),
       ("cB", { user_id := some "uB", subscribed_channels := ["room"] }),
       ("cC", { user_id := some "uC", subscribed_channels := ["room"] })],
    user_connections := [("uA", ["cA"]), ("uB", ["cB"]), ("uC", ["cC"])],
    channel_subscriptions := [("room", ["cA", "cB", "cC"])] }

/-- A broadcast including users A and B but excluding B. -/
def bmC2 : BroadcastMessage :=
  { channel := "room", event := "e", payload := "p",
    exclude_user_ids := some ["uB"], include_user_ids := some ["uA", "uB"] }

/-- An include-only broadcast naming a user with no subscribed
connection, while other subscribers exist. -/
def bmC2inc : BroadcastMessage :=
  { channel := "room", event := "e", payload := "p",
    include_user_ids := some ["uZ"] }

/-- One authenticated connection subscribed to one channel. -/
def stC6 : MState :=
  { active_connections :=
      [("c1", { user_id := some "u1", subscribed_channels := ["ch"] })],
    user_connections := [("u1", ["c1"])],
    channel_subscriptions := [("ch", ["c1"])] }

/-- One anonymous connection, stale since time zero, subscribed to one
channel. -/
def stC3 : MState :=
  { active_connections :=
      [("c1", { user_id := none, last_seen := 0, subscribed_channels := ["ch"] })],
    channel_subscriptions := [("ch", ["c1"])] }

/-- One anonymous connection with no subscriptions. -/
def stC4 : MState :=
  { active_connections := [("c1", {})] }

/-- Three well-formed stored broadcast messages. -/
def m1 : Msg := { type := "broadcast", payload := some "1" }

def m2 : Msg := { type := "broadcast", payload := some "2" }

def m3 : Msg := { type := "broadcast", payload := some "3" }

/-- One connection, and a channel whose store holds m1, m2, m3 pushed
in that order (newest first) with one undecodable blob interleaved. -/
def stC7 : MState :=
  { active_connections := [("c1", {})],
    channelMessages := [("hist", [some m3, none, some m2, some m1])] }

/-- The Channel Index invariant: for every registered connection, a
connection id is in a channel's subscriber set exactly when the channel
is in that connection's own subscribed set; and every id appearing in a
channel's subscriber set is a registered connection. -/
def Invariant (st : MState) : Prop :=
  (∀ cid conn ch, mget st.active_connections cid = some conn →
      (cid ∈ chanSubs st ch ↔ ch ∈ conn.subscribed_channels)) ∧
  (∀ ch cid, cid ∈ chanSubs st ch → ∃ conn, mget st.active_connections cid = some conn)

/-! ### Lemmas about the map and set primitives -/

theorem mget_mset {α : Type} (m : List (String × α)) (k k' : String) (v : α) :
    mget (mset m k v) k' = if k = k' then some v else mget m k' := by
  induction m with
  | nil => simp [mget, mset]
  | cons p rest ih =>
    obtain ⟨k1, v1⟩ := p
    by_cases h1 : k1 = k
    · subst h1
      by_cases h2 : k1 = k' <;> simp [mget, mset, h2]
    · by_cases h2 : k1 = k'
      · subst h2
        simp [mget, mset, h1, Ne.symm h1]
      · simp [mget, mset, h1, h2, ih]

theorem mget_mset_self {α : Type} (m : List (String × α)) (k : String) (v : α) :
    mget (mset m k v) k = some v := by
  simp [mget_mset]

theorem mget_mset_ne {α : Type} (m : List (String × α)) {k k' : String} (v : α)
    (h : k ≠ k') : mget (mset m k v) k' = mget m k' := by
  simp [mget_mset, h]

theorem mget_mdel {α : Type} (m : List (String × α)) (k k' : String) :
    mget (mdel m k) k' = if k = k' then none else mget m k' := by
  induction m with
  | nil => simp [mget, mdel]
  | cons p rest ih =>
    obtain ⟨k1, v1⟩ := p
    by_cases h1 : k1 = k
    · subst h1
      by_cases h2 : k1 = k'
      · subst h2
        simp [mget, mdel, ih]
      · simp [mget, mdel, h2, ih]
    · by_cases h2 : k1 = k'
      · subst h2
        simp [mget, mdel, h1, Ne.symm h1]
      · simp [mget, mdel, h1, h2, ih]

theorem mget_mdel_self {α : Type} (m : List (String × α)) (k : String) :
    mget (mdel m k) k = none := by
  simp [mget_mdel]

theorem mget_mdel_ne {α : Type} (m : List (String × α)) {k k' : String}
    (h : k ≠ k') : mget (mdel m k) k' = mget m k' := by
  simp [mget_mdel, h]

theorem mem_sadd {s : List String} {x y : String} :
    y ∈ sadd s x ↔ y = x ∨ y ∈ s := by
  by_cases h : x ∈ s
  · simp [sadd, h]
    rintro rfl; exact h
  · simp [sadd, h]

theorem mem_sdiscard {s : List String} {x y : String} :
    y ∈ sdiscard s x ↔ y ∈ s ∧ y ≠ x := by
  simp [sdiscard]

theorem mem_sunion {a b : List String} {y : String} :
    y ∈ sunion a b ↔ y ∈ a ∨ y ∈ b := by
  simp [sunion]
  constructor
  · rintro (h | ⟨h, -⟩)
    · exact Or.inl h
    · exact Or.inr h
  · rintro (h | h)
    · exact Or.inl h
    · by_cases ha : y ∈ a
      · exact Or.inl ha
      · exact Or.inr ⟨h, ha⟩

theorem mem_sinter {a b : List String} {y : String} :
    y ∈ sinter a b ↔ y ∈ a ∧ y ∈ b := by
  simp [sinter]

theorem mem_sdiff {a b : List String} {y : String} :
    y ∈ sdiff a b ↔ y ∈ a ∧ y ∉ b := by
  simp [sdiff]

/-! ### Effect of `updateLastSeen` and `sendMessage` on the state -/

@[simp] theorem updateLastSeen_chan (st : MState) (cid : String) (t : Nat) :
    (updateLastSeen st cid t).channel_subscriptions = st.channel_subscriptions := by
  unfold updateLastSeen
  cases mget st.active_connections cid <;> rfl

@[simp] theorem updateLastSeen_user (st : MState) (cid : String) (t : Nat) :
    (updateLastSeen st cid t).user_connections = st.user_connections := by
  unfold updateLastSeen
  cases mget st.active_connections cid <;> rfl

@[simp] theorem updateLastSeen_msgs (st : MState) (cid : String) (t : Nat) :
    (updateLastSeen st cid t).channelMessages = st.channelMessages := by
  unfold updateLastSeen
  cases mget st.active_connections cid <;> rfl

@[simp] theorem updateLastSeen_lastAct (st : MState) (cid : String) (t : Nat) :
    (updateLastSeen st cid t).lastActivity = st.lastActivity := by
  unfold updateLastSeen
  cases mget st.active_connections cid <;> rfl

theorem updateLastSeen_active (st : MState) (cid : String) (t : Nat) (x : String) :
    mget (updateLastSeen st cid t).active_connections x =
      if x = cid then (mget st.active_connections cid).map (fun c => { c with last_seen := t })
      else mget st.active_connections x := by
  unfold updateLastSeen
  cases hc : mget st.active_connections cid with
  | none =>
    by_cases hx : x = cid
    · subst hx; simp [hc]
    · simp [hx]
  | some c =>
    by_cases hx : x = cid
    · subst hx
      simp [setConn, hc, mget_mset_self]
    · simp only [setConn, if_neg hx]
      exact mget_mset_ne _ _ (Ne.symm hx)

@[simp] theorem chanSubs_updateLastSeen (st : MState) (cid : String) (t : Nat) (ch : String) :
    chanSubs (updateLastSeen st cid t) ch = chanSubs st ch := by
  unfold chanSubs
  rw [updateLastSeen_chan]

@[simp] theorem userConns_updateLastSeen (st : MState) (cid : String) (t : Nat) (u : String) :
    userConns (updateLastSeen st cid t) u = userConns st u := by
  unfold userConns
  rw [updateLastSeen_user]

theorem sendMessage_chan (env : Env) (st : MState) (cid : String) (m : Msg) :
    (sendMessage env st cid m).1.channel_subscriptions = st.channel_subscriptions := by
  unfold sendMessage
  by_cases h : env.sendOk cid <;> simp [h]

theorem sendMessage_user (env : Env) (st : MState) (cid : String) (m : Msg) :
    (sendMessage env st cid m).1.user_connections = st.user_connections := by
  unfold sendMessage
  by_cases h : env.sendOk cid <;> simp [h]

theorem sendMessage_msgs (env : Env) (st : MState) (cid : String) (m : Msg) :
    (sendMessage env st cid m).1.channelMessages = st.channelMessages := by
  unfold sendMessage
  by_cases h : env.sendOk cid <;> simp [h]

theorem sendMessage_active (env : Env) (st : MState) (cid : String) (m : Msg) (x : String) :
    mget (sendMessage env st cid m).1.active_connections x =
      if env.sendOk cid then
        (if x = cid then (mget st.active_connections cid).map (fun c => { c with last_seen := env.now })
         else mget st.active_connections x)
      else mget st.active_connections x := by
  unfold sendMessage
  by_cases h : env.sendOk cid <;> simp [h, updateLastSeen_active]

/-! ### The bidirectional subscription invariant -/

theorem invariant_initState : Invariant {} := by
  constructor
  · intro cid conn ch h
    simp [mget] at h
  · intro ch cid h
    simp [chanSubs, mget] at h

theorem invariant_updateLastSeen (st : MState) (cid : String) (t : Nat)
    (h : Invariant st) : Invariant (updateLastSeen st cid t) := by
  obtain ⟨h1, h2⟩ := h
  constructor
  · intro cid' conn' ch hm
    rw [updateLastSeen_active] at hm
    rw [chanSubs_updateLastSeen]
    by_cases hx : cid' = cid
    · subst hx
      simp only [if_pos rfl] at hm
      cases hc : mget st.active_connections cid' with
      | none => rw [hc] at hm; simp at hm
      | some c =>
        rw [hc] at hm
        simp at hm
        have := h1 cid' c ch hc
        rw [← hm]
        exact this
    · rw [if_neg hx] at hm
      exact h1 cid' conn' ch hm
  · intro ch cid' hmem
    rw [chanSubs_updateLastSeen] at hmem
    obtain ⟨conn, hconn⟩ := h2 ch cid' hmem
    rw [updateLastSeen_active]
    by_cases hx : cid' = cid
    · subst hx
      rw [if_pos rfl, hconn]
      exact ⟨_, rfl⟩
    · rw [if_neg hx]
      exact ⟨conn, hconn⟩

theorem invariant_sendMessage (env : Env) (st : MState) (cid : String) (m : Msg)
    (h : Invariant st) : Invariant (sendMessage env st cid m).1 := by
  unfold sendMessage
  by_cases hs : env.sendOk cid
  · simpa [hs] using invariant_updateLastSeen st cid env.now h
  · simpa [hs] using h

theorem invariant_sendHistoryMsgs (env : Env) (cid : String) (L : List RawEntry)
    (st : MState) (h : Invariant st) : Invariant (sendHistoryMsgs env cid L st).1 := by
  induction L generalizing st with
  | nil => simpa [sendHistoryMsgs] using h
  | cons raw rest ih =>
    cases raw with
    | none => simpa [sendHistoryMsgs] using ih st h
    | some m =>
      simp only [sendHistoryMsgs]
      exact ih _ (invariant_sendMessage env st cid _ h)

theorem invariant_sendChannelHistory (env : Env) (st : MState) (cid ch : String)
    (h : Invariant st) : Invariant (sendChannelHistory env st cid ch).1 := by
  unfold sendChannelHistory
  exact invariant_sendMessage env _ cid _ (invariant_sendHistoryMsgs env cid _ st h)

/-! ### Invariant preservation by subscribe -/

theorem chanSubs_setConn (st : MState) (cid : String) (c : WSConn) (x : String) :
    chanSubs (setConn st cid c) x = chanSubs st x := rfl

theorem invariant_subCore (st : MState) (cid ch : String) (conn : WSConn)
    (cfgS : SubConfig) (hc : mget st.active_connections cid = some conn)
    (h : Invariant st) :
    Invariant (setConn
      { st with channel_subscriptions :=
          (mset st.channel_subscriptions ch (sadd (chanSubs st ch) cid)) }
      cid
      { conn with subscribed_channels := sadd conn.subscribed_channels ch,
                  channel_configs := mset conn.channel_configs ch cfgS }) := by
  obtain ⟨h1, h2⟩ := h
  have hcs : ∀ x, chanSubs (setConn
      { st with channel_subscriptions :=
          (mset st.channel_subscriptions ch (sadd (chanSubs st ch) cid)) }
      cid
      { conn with subscribed_channels := sadd conn.subscribed_channels ch,
                  channel_configs := mset conn.channel_configs ch cfgS }) x =
      if ch = x then sadd (chanSubs st ch) cid else chanSubs st x := by
    intro x
    show (mget (mset st.channel_subscriptions ch (sadd (chanSubs st ch) cid)) x).getD [] = _
    rw [mget_mset]
    by_cases hx : ch = x <;> simp [hx, chanSubs]
  constructor
  · intro cid' conn' ch' hm
    rw [hcs]
    simp only [setConn, mget_mset] at hm
    by_cases hcid : cid = cid'
    · subst hcid
      rw [if_pos rfl] at hm
      injection hm with hm
      subst hm
      by_cases hch : ch = ch'
      · subst hch
        simp [mem_sadd]
      · rw [if_neg hch]
        simp only [mem_sadd]
        have := h1 cid conn ch' hc
        constructor
        · intro hx
          exact Or.inr (this.mp hx)
        · rintro (rfl | hx)
          · exact absurd rfl hch
          · exact this.mpr hx
    · rw [if_neg hcid] at hm
      by_cases hch : ch = ch'
      · subst hch
        rw [if_pos rfl, mem_sadd]
        have := h1 cid' conn' ch hm
        constructor
        · rintro (rfl | hx)
          · exact absurd rfl hcid
          · exact this.mp hx
        · intro hx
          exact Or.inr (this.mpr hx)
      · rw [if_neg hch]
        exact h1 cid' conn' ch' hm
  · intro ch' cid' hmem
    rw [hcs] at hmem
    simp only [setConn, mget_mset]
    by_cases hcid : cid = cid'
    · rw [if_pos hcid]
      exact ⟨_, rfl⟩
    · rw [if_neg hcid]
      by_cases hch : ch = ch'
      · rw [if_pos hch] at hmem
        rw [mem_sadd] at hmem
        rcases hmem with rfl | hx
        · exact absurd rfl hcid
        · exact h2 ch cid' hx
      · rw [if_neg hch] at hmem
        exact h2 ch' cid' hmem

theorem invariant_subscribeChannel (env : Env) (st : MState) (cid : String)
    (sub : ChannelSubscription) (h : Invariant st) :
    Invariant (subscribeChannel env st cid sub).1 := by
  unfold subscribeChannel
  cases hc : mget st.active_connections cid with
  | none => exact h
  | some conn =>
    have hcore := invariant_subCore st cid sub.channel conn sub.config hc h
    have hsend := invariant_sendMessage env _ cid (subAckMsg sub.channel env.now) hcore
    simp only
    split
    · split
      · exact invariant_sendChannelHistory env _ cid sub.channel hsend
      · exact hsend
    · exact hsend

/-! ### Invariant preservation by unsubscribe -/

theorem chanSubs_removeSub (st : MState) (ch cid x : String) :
    chanSubs (removeSub st ch cid) x =
      if ch = x then sdiscard (chanSubs st ch) cid else chanSubs st x := by
  unfold removeSub
  cases hs : mget st.channel_subscriptions ch with
  | none =>
    by_cases hx : ch = x
    · subst hx
      simp [chanSubs, hs, sdiscard]
    · simp [hx]
  | some s =>
    by_cases he : sdiscard s cid = []
    · simp only [he, if_pos rfl]
      by_cases hx : ch = x
      · subst hx
        simp [chanSubs, mget_mdel, hs, he]
      · simp [chanSubs, mget_mdel, hx, hs]
    · simp only [he, if_neg he]
      by_cases hx : ch = x
      · subst hx
        simp [chanSubs, mget_mset, hs]
      · simp [chanSubs, mget_mset, hx]

theorem removeSub_active (st : MState) (ch cid : String) :
    (removeSub st ch cid).active_connections = st.active_connections := by
  unfold removeSub
  cases mget st.channel_subscriptions ch with
  | none => rfl
  | some s =>
    by_cases he : sdiscard s cid = [] <;> simp [he]

theorem invariant_unsubCore (st : MState) (cid ch : String) (conn : WSConn)
    (hc : mget st.active_connections cid = some conn) (h : Invariant st) :
    Invariant (setConn (removeSub st ch cid) cid
      { conn with subscribed_channels := sdiscard conn.subscribed_channels ch,
                  channel_configs := mdel conn.channel_configs ch }) := by
  obtain ⟨h1, h2⟩ := h
  have hcs : ∀ x, chanSubs (setConn (removeSub st ch cid) cid
      { conn with subscribed_channels := sdiscard conn.subscribed_channels ch,
                  channel_configs := mdel conn.channel_configs ch }) x =
      if ch = x then sdiscard (chanSubs st ch) cid else chanSubs st x := by
    intro x
    rw [chanSubs_setConn, chanSubs_removeSub]
  constructor
  · intro cid' conn' ch' hm
    rw [hcs]
    simp only [setConn, removeSub_active] at hm
    rw [mget_mset] at hm
    by_cases hcid : cid = cid'
    · subst hcid
      rw [if_pos rfl] at hm
      injection hm with hm
      subst hm
      by_cases hch : ch = ch'
      · subst hch
        simp [mem_sdiscard]
      · rw [if_neg hch]
        simp only [mem_sdiscard]
        have := h1 cid conn ch' hc
        constructor
        · intro hx
          exact ⟨this.mp hx, fun hx2 => hch hx2.symm⟩
        · rintro ⟨hx, -⟩
          exact this.mpr hx
    · rw [if_neg hcid] at hm
      by_cases hch : ch = ch'
      · subst hch
        rw [if_pos rfl, mem_sdiscard]
        have := h1 cid' conn' ch hm
        constructor
        · rintro ⟨hx, -⟩
          exact this.mp hx
        · intro hx
          exact ⟨this.mpr hx, fun hx2 => hcid hx2.symm⟩
      · rw [if_neg hch]
        exact h1 cid' conn' ch' hm
  · intro ch' cid' hmem
    rw [hcs] at hmem
    simp only [setConn, removeSub_active]
    rw [mget_mset]
    by_cases hcid : cid = cid'
    · rw [if_pos hcid]
      exact ⟨_, rfl⟩
    · rw [if_neg hcid]
      by_cases hch : ch = ch'
      · rw [if_pos hch] at hmem
        rw [mem_sdiscard] at hmem
        exact h2 ch cid' hmem.1
      · rw [if_neg hch] at hmem
        exact h2 ch' cid' hmem

theorem invariant_unsubscribeChannel (env : Env) (st : MState) (cid ch : String)
    (h : Invariant st) : Invariant (unsubscribeChannel env st cid ch).1 := by
  unfold unsubscribeChannel
  cases hc : mget st.active_connections cid with
  | none => exact h
  | some conn =>
    exact invariant_sendMessage env _ cid (unsubAckMsg ch env.now)
      (invariant_unsubCore st cid ch conn hc h)

/-! ### Invariant preservation by disconnect -/

theorem chanSubs_sendMessage (env : Env) (st : MState) (cid : String) (m : Msg)
    (x : String) : chanSubs (sendMessage env st cid m).1 x = chanSubs st x := by
  unfold chanSubs
  rw [sendMessage_chan]

theorem unsub_chanSubs (env : Env) (st : MState) (cid ch : String) (conn : WSConn)
    (hc : mget st.active_connections cid = some conn) (x : String) :
    chanSubs (unsubscribeChannel env st cid ch).1 x =
      if ch = x then sdiscard (chanSubs st ch) cid else chanSubs st x := by
  unfold unsubscribeChannel
  rw [hc]
  simp only
  rw [chanSubs_sendMessage, chanSubs_setConn, chanSubs_removeSub]

theorem unsub_active_self (env : Env) (st : MState) (cid ch : String) (conn : WSConn)
    (hc : mget st.active_connections cid = some conn) :
    ∃ conn', mget (unsubscribeChannel env st cid ch).1.active_connections cid = some conn' := by
  unfold unsubscribeChannel
  rw [hc]
  simp only
  rw [sendMessage_active]
  by_cases hs : env.sendOk cid <;>
    simp [hs, setConn, removeSub_active, mget_mset_self]

theorem invariant_unsubAll (env : Env) (cid : String) (L : List String) (st : MState)
    (h : Invariant st) : Invariant (unsubAll env cid L st).1 := by
  induction L generalizing st with
  | nil => exact h
  | cons ch rest ih =>
    simp only [unsubAll]
    cases hr : (unsubscribeChannel env st cid ch).2.2 with
    | ok u => exact ih _ (invariant_unsubscribeChannel env st cid ch h)
    | error e => exact invariant_unsubscribeChannel env st cid ch h

theorem unsubAll_active_self (env : Env) (cid : String) (L : List String) (st : MState)
    (conn : WSConn) (hc : mget st.active_connections cid = some conn) :
    ∃ conn', mget (unsubAll env cid L st).1.active_connections cid = some conn' := by
  induction L generalizing st conn with
  | nil => exact ⟨conn, hc⟩
  | cons ch rest ih =>
    obtain ⟨c1, hc1⟩ := unsub_active_self env st cid ch conn hc
    simp only [unsubAll]
    cases hr : (unsubscribeChannel env st cid ch).2.2 with
    | ok u => exact ih _ c1 hc1
    | error e => exact ⟨c1, hc1⟩

theorem unsubAll_removes (env : Env) (cid : String) (L : List String) (st : MState)
    (conn : WSConn) (hc : mget st.active_connections cid = some conn)
    (hok : (unsubAll env cid L st).2.2 = Except.ok ()) (x : String)
    (hmem : cid ∈ chanSubs (unsubAll env cid L st).1 x) :
    cid ∈ chanSubs st x ∧ x ∉ L := by
  induction L generalizing st conn with
  | nil =>
    refine ⟨?_, by simp⟩
    simpa [unsubAll] using hmem
  | cons ch rest ih =>
    obtain ⟨c1, hc1⟩ := unsub_active_self env st cid ch conn hc
    rw [unsubAll] at hok hmem
    cases hr : (unsubscribeChannel env st cid ch).2.2 with
    | error e =>
      rw [hr] at hok
      simp at hok
    | ok u =>
      rw [hr] at hok hmem
      simp only at hok hmem
      have step := ih (unsubscribeChannel env st cid ch).1 c1 hc1 hok hmem
      rw [unsub_chanSubs env st cid ch conn hc x] at step
      by_cases hx : ch = x
      · rw [if_pos hx] at step
        rw [mem_sdiscard] at step
        exact absurd rfl step.1.2
      · rw [if_neg hx] at step
        refine ⟨step.1, ?_⟩
        simp only [List.mem_cons]
        rintro (rfl | hr2)
        · exact hx rfl
        · exact step.2 hr2

theorem removeUserConn_active (st : MState) (uid : Option String) (cid : String) :
    (removeUserConn st uid cid).active_connections = st.active_connections := by
  unfold removeUserConn
  cases uid with
  | none => rfl
  | some u =>
    cases hs : mget st.user_connections u with
    | none => simp [hs]
    | some s => by_cases he : sdiscard s cid = [] <;> simp [hs, he]

theorem removeUserConn_chan (st : MState) (uid : Option String) (cid : String) :
    (removeUserConn st uid cid).channel_subscriptions = st.channel_subscriptions := by
  unfold removeUserConn
  cases uid with
  | none => rfl
  | some u =>
    cases hs : mget st.user_connections u with
    | none => simp [hs]
    | some s => by_cases he : sdiscard s cid = [] <;> simp [hs, he]

theorem chanSubs_removeUserConn (st : MState) (uid : Option String) (cid x : String) :
    chanSubs (removeUserConn st uid cid) x = chanSubs st x := by
  unfold chanSubs
  rw [removeUserConn_chan]

theorem invariant_removeUserConn (st : MState) (uid : Option String) (cid : String)
    (h : Invariant st) : Invariant (removeUserConn st uid cid) := by
  obtain ⟨h1, h2⟩ := h
  constructor
  · intro cid' conn' x hm
    rw [removeUserConn_active] at hm
    rw [chanSubs_removeUserConn]
    exact h1 cid' conn' x hm
  · intro x cid' hmem
    rw [chanSubs_removeUserConn] at hmem
    rw [removeUserConn_active]
    exact h2 x cid' hmem

theorem invariant_mdel_active (st : MState) (cid : String) (h : Invariant st)
    (hrem : ∀ x, cid ∉ chanSubs st x) :
    Invariant { st with active_connections := mdel st.active_connections cid } := by
  obtain ⟨h1, h2⟩ := h
  constructor
  · intro cid' conn' x hm
    simp only at hm
    rw [mget_mdel] at hm
    by_cases hcid : cid = cid'
    · rw [if_pos hcid] at hm
      exact absurd hm (by simp)
    · rw [if_neg hcid] at hm
      exact h1 cid' conn' x hm
  · intro x cid' hmem
    have hmem' : cid' ∈ chanSubs st x := hmem
    obtain ⟨conn, hconn⟩ := h2 x cid' hmem'
    simp only
    rw [mget_mdel]
    by_cases hcid : cid = cid'
    · subst hcid
      exact absurd hmem' (hrem x)
    · rw [if_neg hcid]
      exact ⟨conn, hconn⟩

theorem invariant_disconnect (env : Env) (st : MState) (cid : String)
    (h : Invariant st) : Invariant (disconnect env st cid).1 := by
  unfold disconnect
  cases hc : mget st.active_connections cid with
  | none => exact h
  | some conn =>
    simp only
    cases hr : (unsubAll env cid conn.subscribed_channels st).2.2 with
    | error e =>
      exact invariant_unsubAll env cid conn.subscribed_channels st h
    | ok u =>
      have h1 : Invariant (unsubAll env cid conn.subscribed_channels st).1 :=
        invariant_unsubAll env cid conn.subscribed_channels st h
      have hrem : ∀ x, cid ∉ chanSubs (unsubAll env cid conn.subscribed_channels st).1 x := by
        intro x hmem
        obtain ⟨hin, hnot⟩ := unsubAll_removes env cid conn.subscribed_channels st conn hc
          (by cases u; exact hr) x hmem
        exact hnot ((h.1 cid conn x hc).mp hin)
      have h2 : Invariant (removeUserConn (unsubAll env cid conn.subscribed_channels st).1
          conn.user_id cid) :=
        invariant_removeUserConn _ conn.user_id cid h1
      have hrem2 : ∀ x, cid ∉ chanSubs (removeUserConn
          (unsubAll env cid conn.subscribed_channels st).1 conn.user_id cid) x := by
        intro x
        rw [chanSubs_removeUserConn]
        exact hrem x
      exact invariant_mdel_active _ cid h2 hrem2

/-! ### Operation sequences and the C1 invariant theorem -/

theorem invariant_applyOp (env : Env) (op : Op) (st : MState) (h : Invariant st) :
    Invariant (applyOp env op st) := by
  cases op with
  | subscribe cid sub => exact invariant_subscribeChannel env st cid sub h
  | unsubscribe cid ch => exact invariant_unsubscribeChannel env st cid ch h
  | disconnect cid => exact invariant_disconnect env st cid h

/-- C1: for every sequence of subscribe, unsubscribe and disconnect
operations run from a state satisfying the bidirectional subscription
invariant, the invariant holds after every operation (every prefix of a
sequence is itself a sequence): a connection id is a member of a
channel's subscriber set in the Channel Index exactly when that channel
name is a member of that connection's own subscribed-channel set, and
every id in a channel's set is a registered connection. -/
theorem subscription_invariant_preserved (st : MState) (h : Invariant st)
    (l : List (Env × Op)) : Invariant (applyOps l st) := by
  induction l generalizing st with
  | nil => exact h
  | cons p rest ih => exact ih (applyOp p.1 p.2 st) (invariant_applyOp p.1 p.2 st h)

/-- Witness for C1: a concrete sequence of subscribe, unsubscribe and
disconnect operations run from the empty initial state. -/
theorem subscription_invariant_preserved_witness :
    Invariant (applyOps
      [({}, Op.subscribe "c1" { channel := "ch" }),
       ({}, Op.unsubscribe "c1" "ch"),
       ({}, Op.disconnect "c1")] {}) :=
  subscription_invariant_preserved {} invariant_initState _

/-- C5: an admission attempt carrying a user id whose current
connection count is at or above the per-user cap fails with
`CapacityExceeded` before any side effect: the returned state is
exactly the input state (all three maps and the store untouched) and
nothing is sent. -/
theorem connect_cap_no_side_effect (cfg : Config) (env : Env) (st : MState)
    (u : String) (h : cfg.MAX_CONNECTIONS_PER_USER ≤ (userConns st u).length) :
    connect cfg env st (some u) = (st, [], Except.error RTError.CapacityExceeded) := by
  unfold connect
  simp [h]

/-- Witness for C5: a user already holding one connection is rejected
under a cap of one, with the registry unchanged. -/
theorem connect_cap_no_side_effect_witness :
    connect { MAX_CONNECTIONS_PER_USER := 1 } {}
        { user_connections := [("u1", ["c0"])] } (some "u1") =
      ({ user_connections := [("u1", ["c0"])] }, [],
        Except.error RTError.CapacityExceeded) :=
  connect_cap_no_side_effect _ _ _ _ (by decide)

theorem persistMessage_chan (cfg : Config) (env : Env) (st : MState) (ch : String)
    (m : Msg) : (persistMessage cfg env st ch m).channel_subscriptions =
      st.channel_subscriptions := rfl

theorem persistMessage_user (cfg : Config) (env : Env) (st : MState) (ch : String)
    (m : Msg) : (persistMessage cfg env st ch m).user_connections =
      st.user_connections := rfl

theorem persistMessage_active (cfg : Config) (env : Env) (st : MState) (ch : String)
    (m : Msg) : (persistMessage cfg env st ch m).active_connections =
      st.active_connections := rfl

theorem sinter_nil (a : List String) : sinter a [] = [] := by
  simp [sinter]

theorem sunion_nil (a : List String) : sunion a [] = a := by
  simp [sunion]

theorem includeFilter_nil_subs (st : MState) (l : List String) :
    includeFilter st [] l = [] := by
  unfold includeFilter
  induction l with
  | nil => rfl
  | cons u rest ih =>
    simp [sinter_nil, sunion_nil, ih]

theorem sdiff_nil_left (b : List String) : sdiff [] b = [] := rfl

/-- C8: after any persist operation under a positive configured
maximum, the channel's stored list is the push result truncated to the
maximum: its length never exceeds the configured cap, and the dropped
entries are exactly the tail of the previous list — the oldest entries,
the list being kept newest-first. -/
theorem persist_cap_oldest_dropped (cfg : Config) (env : Env) (st : MState)
    (ch : String) (m : Msg) (hM : 0 < cfg.MAX_MESSAGES_PER_CHANNEL) :
    (mget (persistMessage cfg env st ch m).channelMessages ch).getD [] =
      (some m :: (mget st.channelMessages ch).getD []).take
        cfg.MAX_MESSAGES_PER_CHANNEL ∧
    ((mget (persistMessage cfg env st ch m).channelMessages ch).getD []).length ≤
      cfg.MAX_MESSAGES_PER_CHANNEL ∧
    ((mget (persistMessage cfg env st ch m).channelMessages ch).getD []) ++
        (some m :: (mget st.channelMessages ch).getD []).drop
          cfg.MAX_MESSAGES_PER_CHANNEL =
      some m :: (mget st.channelMessages ch).getD [] := by
  have hz : cfg.MAX_MESSAGES_PER_CHANNEL ≠ 0 := Nat.pos_iff_ne_zero.mp hM
  unfold persistMessage
  simp only [hz, if_neg hz, mget_mset_self, Option.getD_some]
  refine ⟨rfl, ?_, ?_⟩
  · exact (List.length_take_le _ _).trans (Nat.le_refl _)
  · exact List.take_append_drop _ _

theorem persist_head (cfg : Config) (env : Env) (st : MState) (ch : String) (m : Msg) :
    ((mget (persistMessage cfg env st ch m).channelMessages ch).getD []).head? =
      some (some m) := by
  unfold persistMessage
  simp only [mget_mset_self, Option.getD_some]
  by_cases h0 : cfg.MAX_MESSAGES_PER_CHANNEL = 0
  · simp [h0]
  · obtain ⟨n, hn⟩ := Nat.exists_eq_succ_of_ne_zero h0
    simp [h0, hn]

theorem persist_lastActivity (cfg : Config) (env : Env) (st : MState) (ch : String)
    (m : Msg) : mget (persistMessage cfg env st ch m).lastActivity ch = some env.now := by
  unfold persistMessage
  exact mget_mset_self _ _ _

theorem sendHistoryMsgs_sends (env : Env) (cid : String) (L : List RawEntry)
    (st : MState) (hok : env.sendOk cid = true) :
    (sendHistoryMsgs env cid L st).2 =
      (L.filterMap id).map (fun m => ((cid, { m with type := "history" }) : Send)) := by
  induction L generalizing st with
  | nil => rfl
  | cons raw rest ih =>
    cases raw with
    | none =>
      simp only [sendHistoryMsgs, List.filterMap_cons]
      exact ih st
    | some m =>
      simp only [sendHistoryMsgs, sendMessage, hok, if_true, List.filterMap_cons]
      rw [ih _]
      rfl

theorem sendChannelHistory_sends (env : Env) (st : MState) (cid ch : String)
    (hok : env.sendOk cid = true) :
    (sendChannelHistory env st cid ch).2 =
      ((((mget st.channelMessages ch).getD []).take 50).reverse.filterMap id).map
        (fun m => ((cid, { m with type := "history" }) : Send)) ++
      [(cid, historyEndMsg ch env.now)] := by
  unfold sendChannelHistory
  simp only [sendMessage, hok, if_true]
  rw [sendHistoryMsgs_sends env cid _ st hok]

/-- C7: a subscribe whose config requests history sends, in order, the
subscribe acknowledgment first, then the up-to-50 most recent stored
entries in oldest-first order with each decodable entry re-tagged as
type history (undecodable entries skipped), then the terminal
history-end marker. -/
theorem subscribe_history_replay (env : Env) (st : MState) (cid ch : String)
    (conn : WSConn) (cfgS : SubConfig)
    (hc : mget st.active_connections cid = some conn)
    (hok : env.sendOk cid = true)
    (hh : cfgS.send_history = true) :
    (subscribeChannel env st cid
        { channel := ch, event := "*", config := cfgS }).2.1 =
      (cid, subAckMsg ch env.now) ::
      (((((mget st.channelMessages ch).getD []).take 50).reverse.filterMap id).map
        (fun m => ((cid, { m with type := "history" }) : Send)) ++
       [(cid, historyEndMsg ch env.now)]) := by
  unfold subscribeChannel
  rw [hc]
  simp only [sendMessage, hok, if_true, hh]
  rw [sendChannelHistory_sends env _ cid ch hok]
  simp only [updateLastSeen_msgs]
  rfl

/-- Witness for C7: with m1, m2, m3 pushed in that order and one
undecodable blob in between, the connection observes the
acknowledgment, then m1, m2, m3 as history, then the end marker. -/
theorem subscribe_history_replay_witness :
    (subscribeChannel {} stC7 "c1"
        { channel := "hist", event := "*", config := { send_history := true } }).2.1 =
      [("c1", subAckMsg "hist" 0),
       ("c1", { m1 with type := "history" }),
       ("c1", { m2 with type := "history" }),
       ("c1", { m3 with type := "history" }),
       ("c1", historyEndMsg "hist" 0)] :=
  (subscribe_history_replay {} stC7 "c1" "hist" {} { send_history := true }
    rfl rfl rfl).trans (by decide)

/-- C9: a broadcast frame arriving on a connection without an
authenticated user id is silently ignored: the dispatch does nothing —
no delivery, no persistence, no error frame — and the loop continues;
the only state change is the last-seen refresh that accompanies every
successfully received frame. -/
theorem anonymous_broadcast_ignored (cfg : Config) (env : Env) (st : MState)
    (cid : String) (size : Nat) (m : InMsg)
    (hsize : size ≤ cfg.MAX_MESSAGE_SIZE)
    (ht : m.type = some "broadcast") :
    loopBody cfg env st cid none (Frame.text size (some m)) =
      (updateLastSeen st cid env.now, [], StepOutcome.continueLoop) := by
  simp only [loopBody, receiveMessage]
  rw [if_neg (by omega : ¬ cfg.MAX_MESSAGE_SIZE < size)]
  simp [ht]

/-- Witness for C9: a complete, well-formed broadcast frame from an
anonymous connection produces no sends and no state change beyond the
receive bookkeeping. -/
theorem anonymous_broadcast_ignored_witness :
    loopBody {} {} stC4 "c1" none (Frame.text 10 (some
        { type := some "broadcast", channel := some "ch", event := some "e",
          payload := some "p" })) =
      (updateLastSeen stC4 "c1" 0, [], StepOutcome.continueLoop) :=
  anonymous_broadcast_ignored {} {} stC4 "c1" 10 _ (by decide) rfl

/-- C3 (code-bug evidence): a connection whose last-seen timestamp is
older than the configured timeout at the start of a sweep survives the
sweep when the heartbeat send to it succeeds, because the successful
send refreshes last-seen before the timeout comparison runs; the
eviction list is empty, the connection stays registered and its channel
subscription stays in the Channel Index. -/
theorem heartbeat_stale_connection_survives :
    mget stC3.active_connections "c1" =
      some { user_id := none, last_seen := 0, subscribed_channels := ["ch"] } ∧
    ({} : Config).CONNECTION_TIMEOUT < ({ now := 301 } : Env).now - 0 ∧
    (heartbeatSweep {} { now := 301 } stC3).2.2 = [] ∧
    (mget (heartbeatSweep {} { now := 301 } stC3).1.active_connections "c1").isSome
      = true ∧
    "c1" ∈ chanSubs (heartbeatSweep {} { now := 301 } stC3).1 "ch" := by
  decide

/-- Counterexample to C4 as stated: an inbound frame above the
configured byte limit does not terminate the connection — the generic
per-frame exception handler answers it with an error frame and the
loop continues, the connection still registered. -/
theorem oversized_frame_does_not_terminate :
    ({} : Config).MAX_MESSAGE_SIZE < 65537 ∧
    (loopBody {} {} stC4 "c1" none (Frame.text 65537 none)).2.2 =
      StepOutcome.continueLoop ∧
    (mget (loopBody {} {} stC4 "c1" none
      (Frame.text 65537 none)).1.active_connections "c1").isSome = true ∧
    (loopBody {} {} stC4 "c1" none (Frame.text 65537 none)).2.1 =
      [("c1", errorMsg 0)] := by
  decide

/-- C4 amended: an oversized inbound frame raises inside the receive
path, is caught by the per-frame handler and answered with an error
frame, and the loop continues with the connection still registered (the
loop ends only on transport close or if the error-frame send itself
fails); a malformed frame is handled identically; an unknown-type frame
is skipped with no error frame.  In every case the only state change is
the connection's own last-seen refresh. -/
theorem frame_violations_do_not_terminate (cfg : Config) (env : Env) (st : MState)
    (cid : String) (uid : Option String) (hok : env.sendOk cid = true) :
    (∀ size parsed, cfg.MAX_MESSAGE_SIZE < size →
      loopBody cfg env st cid uid (Frame.text size parsed) =
        (updateLastSeen st cid env.now, [(cid, errorMsg env.now)],
          StepOutcome.continueLoop)) ∧
    (∀ size, size ≤ cfg.MAX_MESSAGE_SIZE →
      loopBody cfg env st cid uid (Frame.text size none) =
        (updateLastSeen st cid env.now, [(cid, errorMsg env.now)],
          StepOutcome.continueLoop)) ∧
    (∀ size im t, size ≤ cfg.MAX_MESSAGE_SIZE → im.type = some t →
      t ∉ (["subscribe", "unsubscribe", "ping", "broadcast"] : List String) →
      loopBody cfg env st cid uid (Frame.text size (some im)) =
        (updateLastSeen st cid env.now, [], StepOutcome.continueLoop)) := by
  refine ⟨?_, ?_, ?_⟩
  · intro size parsed hbig
    simp only [loopBody, receiveMessage]
    simp [hbig, sendMessage, hok]
  · intro size hsm
    have hns : ¬ cfg.MAX_MESSAGE_SIZE < size := by omega
    simp only [loopBody, receiveMessage]
    simp [hns, sendMessage, hok]
  · intro size im t hsm ht hnot
    simp only [List.mem_cons, List.not_mem_nil, or_false, not_or] at hnot
    obtain ⟨h1, h2, h3, h4⟩ := hnot
    have hns : ¬ cfg.MAX_MESSAGE_SIZE < size := by omega
    simp only [loopBody, receiveMessage]
    simp [hns, ht, h1, h2, h3, h4]

/-- Witness for the amended C4: oversized, malformed and unknown
frames at a concrete connection, none of which ends the loop. -/
theorem frame_violations_do_not_terminate_witness :
    loopBody {} {} stC4 "c1" none (Frame.text 70000 none) =
      (updateLastSeen stC4 "c1" 0, [("c1", errorMsg 0)],
        StepOutcome.continueLoop) ∧
    loopBody {} {} stC4 "c1" none (Frame.text 10 none) =
      (updateLastSeen stC4 "c1" 0, [("c1", errorMsg 0)],
        StepOutcome.continueLoop) ∧
    loopBody {} {} stC4 "c1" none (Frame.text 10 (some { type := some "mystery" })) =
      (updateLastSeen stC4 "c1" 0, [], StepOutcome.continueLoop) :=
  ⟨(frame_violations_do_not_terminate {} {} stC4 "c1" none rfl).1 70000 none
      (by decide),
   (frame_violations_do_not_terminate {} {} stC4 "c1" none rfl).2.1 10 (by decide),
   (frame_violations_do_not_terminate {} {} stC4 "c1" none rfl).2.2 10 _ "mystery"
      (by decide) rfl (by decide)⟩

theorem mget_mem {α : Type} (m : List (String × α)) (k : String) (v : α)
    (h : mget m k = some v) : (k, v) ∈ m := by
  induction m with
  | nil => simp [mget] at h
  | cons p rest ih =>
    obtain ⟨k1, v1⟩ := p
    by_cases hk : k1 = k
    · subst hk
      simp only [mget, if_pos rfl] at h
      injection h with h
      subst h
      exact List.mem_cons_self _ _
    · simp only [mget, if_neg hk] at h
      exact List.mem_cons_of_mem _ (ih h)

theorem removeUserConn_user_self (st : MState) (u cid : String) :
    ∀ s, mget (removeUserConn st (some u) cid).user_connections u = some s →
      cid ∉ s ∧ s ≠ [] := by
  intro s h
  unfold removeUserConn at h
  cases hs : mget st.user_connections u with
  | none =>
    simp only [hs] at h
    exact absurd h (by simp)
  | some s0 =>
    simp only [hs] at h
    by_cases he : sdiscard s0 cid = []
    · rw [if_pos he] at h
      simp only at h
      rw [mget_mdel_self] at h
      exact absurd h (by simp)
    · rw [if_neg he] at h
      simp only at h
      rw [mget_mset_self] at h
      injection h with h
      subst h
      exact ⟨fun hmem => (mem_sdiscard.mp hmem).2 rfl, he⟩

/-- C6: disconnecting an unregistered id (which includes a second
disconnect of an already-removed id) returns without error and without
touching any state; and a successful disconnect of a registered
connection removes the id from the primary map, from every channel's
subscriber set — given that every Channel Index entry holding the id is
a channel recorded in the connection's own set, which the C1 invariant
guarantees on reachable states — and from its user's connection set,
that set itself being deleted when it becomes empty. -/
theorem disconnect_idempotent_cleanup (env : Env) (st : MState) (cid : String) :
    (mget st.active_connections cid = none →
      disconnect env st cid = (st, [], Except.ok ())) ∧
    (∀ conn st' sends,
      mget st.active_connections cid = some conn →
      (∀ p ∈ st.channel_subscriptions, cid ∈ p.2 →
        p.1 ∈ conn.subscribed_channels) →
      disconnect env st cid = (st', sends, Except.ok ()) →
      (mget st'.active_connections cid = none ∧
       (∀ ch, cid ∉ chanSubs st' ch) ∧
       (∀ u, conn.user_id = some u →
         ∀ s, mget st'.user_connections u = some s → cid ∉ s ∧ s ≠ []))) := by
  constructor
  · intro h
    unfold disconnect
    rw [h]
  · intro conn st' sends hc hcover hd
    unfold disconnect at hd
    rw [hc] at hd
    simp only at hd
    cases hr : (unsubAll env cid conn.subscribed_channels st).2.2 with
    | error e =>
      rw [hr] at hd
      have := congrArg (fun t => t.2.2) hd
      simp at this
    | ok uu =>
      cases uu
      rw [hr] at hd
      have hst : st' = { removeUserConn (unsubAll env cid conn.subscribed_channels st).1
          conn.user_id cid with
        active_connections := mdel (removeUserConn
          (unsubAll env cid conn.subscribed_channels st).1 conn.user_id cid).active_connections cid } := by
        have := congrArg (fun t => t.1) hd
        simpa using this.symm
      have hrem : ∀ x, cid ∉ chanSubs (unsubAll env cid conn.subscribed_channels st).1 x := by
        intro x hmem
        obtain ⟨hin, hnot⟩ := unsubAll_removes env cid conn.subscribed_channels st conn hc
          hr x hmem
        unfold chanSubs at hin
        cases hms : mget st.channel_subscriptions x with
        | none => rw [hms] at hin; simp at hin
        | some s =>
          rw [hms] at hin
          simp only [Option.getD_some] at hin
          exact hnot (hcover (x, s) (mget_mem _ _ _ hms) hin)
      subst hst
      refine ⟨?_, ?_, ?_⟩
      · simp only
        rw [mget_mdel_self]
      · intro ch
        have : chanSubs { removeUserConn (unsubAll env cid conn.subscribed_channels st).1
            conn.user_id cid with
          active_connections := mdel (removeUserConn
            (unsubAll env cid conn.subscribed_channels st).1 conn.user_id cid).active_connections cid } ch =
            chanSubs (unsubAll env cid conn.subscribed_channels st).1 ch := by
          show (mget (removeUserConn (unsubAll env cid conn.subscribed_channels st).1
            conn.user_id cid).channel_subscriptions ch).getD [] = _
          rw [removeUserConn_chan]
          rfl
        rw [this]
        exact hrem ch
      · intro u hu s hsu
        rw [hu] at hsu
        exact removeUserConn_user_self _ u cid s hsu

/-- Witness for C6: disconnecting an unknown id is a no-op, and
disconnecting the one registered connection cleans up the primary map,
the channel index and the user map. -/
theorem disconnect_idempotent_cleanup_witness :
    disconnect {} stC6 "zz" = (stC6, [], Except.ok ()) ∧
    (mget (disconnect {} stC6 "c1").1.active_connections "c1" = none ∧
     (∀ ch, "c1" ∉ chanSubs (disconnect {} stC6 "c1").1 ch) ∧
     (∀ u, (some "u1" : Option String) = some u →
       ∀ s, mget (disconnect {} stC6 "c1").1.user_connections u = some s →
         "c1" ∉ s ∧ s ≠ [])) :=
  ⟨(disconnect_idempotent_cleanup {} stC6 "zz").1 rfl,
   (disconnect_idempotent_cleanup {} stC6 "c1").2
     { user_id := some "u1", subscribed_channels := ["ch"] }
     (disconnect {} stC6 "c1").1 (disconnect {} stC6 "c1").2.1
     rfl (by decide) rfl⟩

theorem chanSubs_persistMessage (cfg : Config) (env : Env) (st : MState)
    (ch : String) (m : Msg) (x : String) :
    chanSubs (persistMessage cfg env st ch m) x = chanSubs st x := rfl

theorem userConns_persistMessage (cfg : Config) (env : Env) (st : MState)
    (ch : String) (m : Msg) (u : String) :
    userConns (persistMessage cfg env st ch m) u = userConns st u := rfl

theorem mem_foldl_include (st : MState) (subs : List String) (l : List String)
    (acc : List String) (y : String) :
    (y ∈ l.foldl (fun a u => sunion a (sinter (userConns st u) subs)) acc) ↔
      (y ∈ acc ∨ ∃ u ∈ l, y ∈ userConns st u ∧ y ∈ subs) := by
  induction l generalizing acc with
  | nil => simp
  | cons u rest ih =>
    rw [List.foldl_cons, ih]
    simp only [mem_sunion, mem_sinter, List.mem_cons]
    constructor
    · rintro ((h | ⟨h1, h2⟩) | ⟨v, hv, h1, h2⟩)
      · exact Or.inl h
      · exact Or.inr ⟨u, Or.inl rfl, h1, h2⟩
      · exact Or.inr ⟨v, Or.inr hv, h1, h2⟩
    · rintro (h | ⟨v, (rfl | hv), h1, h2⟩)
      · exact Or.inl (Or.inl h)
      · exact Or.inl (Or.inr ⟨h1, h2⟩)
      · exact Or.inr ⟨v, hv, h1, h2⟩

theorem mem_includeFilter (st : MState) (subs : List String) (l : List String)
    (y : String) :
    (y ∈ includeFilter st subs l) ↔ (∃ u ∈ l, y ∈ userConns st u ∧ y ∈ subs) := by
  unfold includeFilter
  rw [mem_foldl_include]
  simp

theorem mem_foldl_excluded (st : MState) (l : List String) (acc : List String)
    (y : String) :
    (y ∈ l.foldl (fun a u => sunion a (userConns st u)) acc) ↔
      (y ∈ acc ∨ ∃ u ∈ l, y ∈ userConns st u) := by
  induction l generalizing acc with
  | nil => simp
  | cons u rest ih =>
    rw [List.foldl_cons, ih]
    simp only [mem_sunion, List.mem_cons]
    constructor
    · rintro ((h | h) | ⟨v, hv, h1⟩)
      · exact Or.inl h
      · exact Or.inr ⟨u, Or.inl rfl, h⟩
      · exact Or.inr ⟨v, Or.inr hv, h1⟩
    · rintro (h | ⟨v, (rfl | hv), h1⟩)
      · exact Or.inl (Or.inl h)
      · exact Or.inl (Or.inr h1)
      · exact Or.inr ⟨v, hv, h1⟩

theorem mem_excludedSet (st : MState) (l : List String) (y : String) :
    (y ∈ excludedSet st l) ↔ (∃ u ∈ l, y ∈ userConns st u) := by
  unfold excludedSet
  rw [mem_foldl_excluded]
  simp

theorem updateLastSeen_active_isSome (st : MState) (cid : String) (t : Nat)
    (x : String) :
    (mget (updateLastSeen st cid t).active_connections x).isSome =
      (mget st.active_connections x).isSome := by
  rw [updateLastSeen_active]
  by_cases hx : x = cid
  · subst hx
    simp
  · rw [if_neg hx]

theorem sendMessage_active_isSome (env : Env) (st : MState) (cid : String)
    (m : Msg) (x : String) :
    (mget (sendMessage env st cid m).1.active_connections x).isSome =
      (mget st.active_connections x).isSome := by
  unfold sendMessage
  by_cases hs : env.sendOk cid
  · simp only [hs, if_true]
    exact updateLastSeen_active_isSome st cid env.now x
  · simp [hs]

theorem deliverAll_spec (env : Env) (m : Msg) (L : List String) (st : MState) :
    (deliverAll env m L st).2.1 =
      (L.filter (fun c => (mget st.active_connections c).isSome && env.sendOk c)).map
        (fun c => (c, m)) ∧
    (deliverAll env m L st).2.2.1 =
      (L.filter (fun c => (mget st.active_connections c).isSome && env.sendOk c)).length ∧
    (deliverAll env m L st).2.2.2 =
      (L.filter (fun c => (mget st.active_connections c).isSome && !env.sendOk c)).length := by
  induction L generalizing st with
  | nil => exact ⟨rfl, rfl, rfl⟩
  | cons cid rest ih =>
    have hcongr : ∀ st' : MState,
        (∀ x, (mget st'.active_connections x).isSome =
          (mget st.active_connections x).isSome) →
        ∀ q : Bool → Bool,
        rest.filter (fun c => (mget st'.active_connections c).isSome && q (env.sendOk c)) =
        rest.filter (fun c => (mget st.active_connections c).isSome && q (env.sendOk c)) := by
      intro st' hsame q
      apply List.filter_congr
      intro a _
      rw [hsame a]
    cases hc : mget st.active_connections cid with
    | none =>
      have hb : ((mget st.active_connections cid).isSome && env.sendOk cid) = false := by
        rw [hc]
        rfl
      have hb2 : ((mget st.active_connections cid).isSome && !env.sendOk cid) = false := by
        rw [hc]
        rfl
      simp only [deliverAll, hc, List.filter_cons, hb, hb2, Bool.false_eq_true,
        if_false]
      exact ih st
    | some c =>
      have hsome : (mget st.active_connections cid).isSome = true := by
        rw [hc]
        rfl
      by_cases hs : env.sendOk cid
      · have hb : ((mget st.active_connections cid).isSome && env.sendOk cid) = true := by
          rw [hsome, hs]
          rfl
        have hb2 : ((mget st.active_connections cid).isSome && !env.sendOk cid) = false := by
          rw [hsome, hs]
          rfl
        obtain ⟨ihs, ihc, ihf⟩ := ih (updateLastSeen st cid env.now)
        rw [hcongr (updateLastSeen st cid env.now)
          (fun x => updateLastSeen_active_isSome st cid env.now x) (fun b => b)] at ihs ihc
        rw [hcongr (updateLastSeen st cid env.now)
          (fun x => updateLastSeen_active_isSome st cid env.now x) (fun b => !b)] at ihf
        simp only [deliverAll, hc, sendMessage, hs, if_true, List.filter_cons, hb, hb2,
          Bool.false_eq_true, if_false, if_true]
        refine ⟨?_, ?_, ?_⟩
        · rw [ihs]
          rfl
        · rw [ihc]
          exact Nat.add_comm _ _
        · rw [ihf]
          exact Nat.add_comm _ _
      · have hb : ((mget st.active_connections cid).isSome && env.sendOk cid) = false := by
          rw [hsome]
          simp [hs]
        have hb2 : ((mget st.active_connections cid).isSome && !env.sendOk cid) = true := by
          rw [hsome]
          simp [hs]
        obtain ⟨ihs, ihc, ihf⟩ := ih st
        simp only [deliverAll, hc, sendMessage, hs, if_false, List.filter_cons, hb, hb2,
          Bool.false_eq_true, if_true]
        refine ⟨?_, ?_, ?_⟩
        · rw [ihs]
          rfl
        · rw [ihc]
          exact Nat.add_comm _ _
        · rw [ihf]
          exact Nat.add_comm _ _

theorem mem_applyIncludeFilter (st : MState) (l1 : List String)
    (incl : Option (List String)) (c : String) :
    (c ∈ applyIncludeFilter st l1 incl) ↔
      (c ∈ l1 ∧ ∀ il, incl = some il → il ≠ [] → ∃ u ∈ il, c ∈ userConns st u) := by
  unfold applyIncludeFilter
  cases incl with
  | none => simp
  | some l =>
    by_cases hl : l = []
    · subst hl
      simp
    · show (c ∈ if l = [] then l1 else includeFilter st l1 l) ↔ _
      rw [if_neg hl, mem_includeFilter]
      constructor
      · rintro ⟨u, hu, hcu, hcl⟩
        refine ⟨hcl, fun il hil hne => ?_⟩
        injection hil with hil
        subst hil
        exact ⟨u, hu, hcu⟩
      · rintro ⟨hcl, hinc⟩
        obtain ⟨u, hu, hcu⟩ := hinc l rfl hl
        exact ⟨u, hu, hcu, hcl⟩

theorem mem_applyExcludeFilter (st : MState) (l1 : List String)
    (excl : Option (List String)) (c : String) :
    (c ∈ applyExcludeFilter st l1 excl) ↔
      (c ∈ l1 ∧ ∀ el, excl = some el → ∀ u ∈ el, c ∉ userConns st u) := by
  unfold applyExcludeFilter
  cases excl with
  | none => simp
  | some l =>
    by_cases hl : l = []
    · subst hl
      simp
    · show (c ∈ if l = [] then l1 else sdiff l1 (excludedSet st l)) ↔ _
      rw [if_neg hl, mem_sdiff]
      constructor
      · rintro ⟨hcl, hnex⟩
        refine ⟨hcl, fun el hel => ?_⟩
        injection hel with hel
        subst hel
        intro u hu hcu
        exact hnex ((mem_excludedSet st l c).mpr ⟨u, hu, hcu⟩)
      · rintro ⟨hcl, hall⟩
        refine ⟨hcl, fun hex => ?_⟩
        obtain ⟨u, hu, hcu⟩ := (mem_excludedSet st l c).mp hex
        exact hall l rfl u hu hcu

theorem mem_resolveSubscribers (st : MState) (channel : String)
    (incl excl : Option (List String)) (c : String) :
    (c ∈ resolveSubscribers st channel incl excl) ↔
      (c ∈ chanSubs st channel ∧
       (∀ il, incl = some il → il ≠ [] → ∃ u ∈ il, c ∈ userConns st u) ∧
       (∀ el, excl = some el → ∀ u ∈ el, c ∉ userConns st u)) := by
  unfold resolveSubscribers
  rw [mem_applyExcludeFilter, mem_applyIncludeFilter, and_assoc]

theorem resolveSubscribers_nil (st : MState) (channel : String)
    (incl excl : Option (List String)) (h : chanSubs st channel = []) :
    resolveSubscribers st channel incl excl = [] := by
  rw [List.eq_nil_iff_forall_not_mem]
  intro c hc
  have := ((mem_resolveSubscribers st channel incl excl c).mp hc).1
  rw [h] at this
  exact absurd this (List.not_mem_nil c)

theorem broadcast_core_spec (env : Env) (m : Msg) (st0 st1 : MState)
    (channel : String) (incl excl : Option (List String))
    (hchan : chanSubs st1 channel = chanSubs st0 channel)
    (huser : ∀ u, userConns st1 u = userConns st0 u)
    (hactive : ∀ x, (mget st1.active_connections x).isSome =
      (mget st0.active_connections x).isSome)
    (hok : ∀ c, env.sendOk c = true)
    (hreg : ∀ c ∈ chanSubs st0 channel,
      (mget st0.active_connections c).isSome = true) :
    (∀ c, (c ∈ ((deliverAll env m (resolveSubscribers st1 channel incl excl)
        st1).2.1).map Prod.fst) ↔
      (c ∈ chanSubs st0 channel ∧
       (∀ il, incl = some il → il ≠ [] → ∃ u ∈ il, c ∈ userConns st0 u) ∧
       (∀ el, excl = some el → ∀ u ∈ el, c ∉ userConns st0 u))) ∧
    (∀ il, incl = some il → il ≠ [] →
      (∀ u ∈ il, ∀ c, c ∈ userConns st0 u → c ∉ chanSubs st0 channel) →
      (deliverAll env m (resolveSubscribers st1 channel incl excl) st1).2.2.1 = 0 ∧
      (deliverAll env m (resolveSubscribers st1 channel incl excl) st1).2.2.2 = 0) := by
  have hmemT : ∀ c, (c ∈ resolveSubscribers st1 channel incl excl) ↔
      (c ∈ chanSubs st0 channel ∧
       (∀ il, incl = some il → il ≠ [] → ∃ u ∈ il, c ∈ userConns st0 u) ∧
       (∀ el, excl = some el → ∀ u ∈ el, c ∉ userConns st0 u)) := by
    intro c
    rw [mem_resolveSubscribers, hchan]
    simp only [huser]
  have hfilter : (resolveSubscribers st1 channel incl excl).filter
        (fun c => (mget st1.active_connections c).isSome && env.sendOk c) =
      resolveSubscribers st1 channel incl excl := by
    rw [List.filter_eq_self]
    intro c hc
    have hcs := ((hmemT c).mp hc).1
    rw [hactive c, hreg c hcs, hok c]
    rfl
  obtain ⟨hsends, hcnt, hfail⟩ := deliverAll_spec env m
    (resolveSubscribers st1 channel incl excl) st1
  constructor
  · intro c
    rw [hsends, hfilter, List.map_map]
    have : (Prod.fst ∘ fun c => ((c, m) : Send)) = id := rfl
    rw [this, List.map_id]
    exact hmemT c
  · intro il hil hne hcond
    have hT : resolveSubscribers st1 channel incl excl = [] := by
      rw [List.eq_nil_iff_forall_not_mem]
      intro c hc
      obtain ⟨hcs, hinc, -⟩ := (hmemT c).mp hc
      obtain ⟨u, hu, hcu⟩ := hinc il hil hne
      exact hcond u hu c hcu hcs
    rw [hcnt, hfail, hT]
    exact ⟨rfl, rfl⟩

/-- C2: for every broadcast call — with all transport sends succeeding
and every channel subscriber currently registered, a consequence of the
C1 invariant — the set of connections the message is delivered to is
the channel's subscriber set, narrowed to the union of the
include-listed users' connections when a non-empty include list is
given, then minus the union of the exclude-listed users' connections
when an exclude list is given; a user appearing in both lists receives
nothing (exclusion wins), and a non-empty include list naming only
users with no subscribed connection yields zero sent and failed counts
even when other subscribers exist. -/
theorem broadcast_filter_semantics (cfg : Config) (env : Env) (st : MState)
    (bm : BroadcastMessage)
    (hok : ∀ c, env.sendOk c = true)
    (hreg : ∀ c ∈ chanSubs st bm.channel,
      (mget st.active_connections c).isSome = true) :
    (∀ c, (c ∈ ((broadcastToChannel cfg env st bm).2.1).map Prod.fst) ↔
      (c ∈ chanSubs st bm.channel ∧
       (∀ il, bm.include_user_ids = some il → il ≠ [] →
         ∃ u ∈ il, c ∈ userConns st u) ∧
       (∀ el, bm.exclude_user_ids = some el → ∀ u ∈ el, c ∉ userConns st u))) ∧
    (∀ il el u, bm.include_user_ids = some il → bm.exclude_user_ids = some el →
      u ∈ il → u ∈ el → ∀ c, c ∈ userConns st u →
      c ∉ ((broadcastToChannel cfg env st bm).2.1).map Prod.fst) ∧
    (∀ il, bm.include_user_ids = some il → il ≠ [] →
      (∀ u ∈ il, ∀ c, c ∈ userConns st u → c ∉ chanSubs st bm.channel) →
      (broadcastToChannel cfg env st bm).2.2.sent_count = 0 ∧
      (broadcastToChannel cfg env st bm).2.2.failed_count = 0) := by
  obtain ⟨channel, event, payload, excl, incl, persist⟩ := bm
  simp only at hreg ⊢
  have hmain : ∀ st1 : MState,
      chanSubs st1 channel = chanSubs st channel →
      (∀ u, userConns st1 u = userConns st u) →
      (∀ x, (mget st1.active_connections x).isSome =
        (mget st.active_connections x).isSome) →
      (∀ c, (c ∈ ((deliverAll env
          { type := "broadcast", channel := some channel, event := some event,
            payload := some payload, message_id := some env.freshId,
            timestamp := env.now }
          (resolveSubscribers st1 channel incl excl) st1).2.1).map Prod.fst) ↔
        (c ∈ chanSubs st channel ∧
         (∀ il, incl = some il → il ≠ [] → ∃ u ∈ il, c ∈ userConns st u) ∧
         (∀ el, excl = some el → ∀ u ∈ el, c ∉ userConns st u))) ∧
      (∀ il, incl = some il → il ≠ [] →
        (∀ u ∈ il, ∀ c, c ∈ userConns st u → c ∉ chanSubs st channel) →
        (deliverAll env
          { type := "broadcast", channel := some channel, event := some event,
            payload := some payload, message_id := some env.freshId,
            timestamp := env.now }
          (resolveSubscribers st1 channel incl excl) st1).2.2.1 = 0 ∧
        (deliverAll env
          { type := "broadcast", channel := some channel, event := some event,
            payload := some payload, message_id := some env.freshId,
            timestamp := env.now }
          (resolveSubscribers st1 channel incl excl) st1).2.2.2 = 0) :=
    fun st1 h1 h2 h3 => broadcast_core_spec env _ st st1 channel incl excl h1 h2 h3
      hok hreg
  cases persist with
  | true =>
    unfold broadcastToChannel
    simp only [if_true]
    obtain ⟨hA, hC⟩ := hmain
      (persistMessage cfg env st channel
        { type := "broadcast", channel := some channel, event := some event,
          payload := some payload, message_id := some env.freshId,
          timestamp := env.now })
      (chanSubs_persistMessage cfg env st channel _ channel)
      (fun u => userConns_persistMessage cfg env st channel _ u)
      (fun x => by rw [persistMessage_active])
    refine ⟨hA, ?_, hC⟩
    intro il el u hil hel hu1 hu2 c hc hmem
    obtain ⟨-, -, hall⟩ := (hA c).mp hmem
    exact hall el hel u hu2 hc
  | false =>
    unfold broadcastToChannel
    simp only [if_false]
    obtain ⟨hA, hC⟩ := hmain st rfl (fun _ => rfl) (fun _ => rfl)
    refine ⟨hA, ?_, hC⟩
    intro il el u hil hel hu1 hu2 c hc hmem
    obtain ⟨-, -, hall⟩ := (hA c).mp hmem
    exact hall el hel u hu2 hc

/-- Witness for C2: subscribers A, B, C: with include list [uA, uB]
and exclude list [uB], the delivered-set characterization holds and B
receives nothing though included (exclusion wins); and an include-only
broadcast naming a user with no subscribed connection has zero sent
and failed counts even though subscribers exist. -/
theorem broadcast_filter_semantics_witness :
    (∀ c, (c ∈ ((broadcastToChannel {} {} stC2 bmC2).2.1).map Prod.fst) ↔
      (c ∈ chanSubs stC2 bmC2.channel ∧
       (∀ il, bmC2.include_user_ids = some il → il ≠ [] →
         ∃ u ∈ il, c ∈ userConns stC2 u) ∧
       (∀ el, bmC2.exclude_user_ids = some el → ∀ u ∈ el,
         c ∉ userConns stC2 u))) ∧
    ("cB" ∉ ((broadcastToChannel {} {} stC2 bmC2).2.1).map Prod.fst) ∧
    ((broadcastToChannel {} {} stC2 bmC2inc).2.2.sent_count = 0 ∧
     (broadcastToChannel {} {} stC2 bmC2inc).2.2.failed_count = 0) :=
  ⟨(broadcast_filter_semantics {} {} stC2 bmC2 (fun _ => rfl) (by decide)).1,
   (broadcast_filter_semantics {} {} stC2 bmC2 (fun _ => rfl) (by decide)).2.1
     ["uA", "uB"] ["uB"] "uB" rfl rfl (by decide) (by decide) "cB" (by decide),
   (broadcast_filter_semantics {} {} stC2 bmC2inc (fun _ => rfl) (by decide)).2.2
     ["uZ"] rfl (by decide) (by decide)⟩

/-- C10: a broadcast with the persist flag set on a channel with no
subscribers still persists the message (it becomes the head of the
channel's stored list) and still refreshes the channel's last-activity
timestamp, and returns the fresh message id with zero sent and failed
counts instead of an error; nothing is delivered. -/
theorem broadcast_no_subscribers_persists (cfg : Config) (env : Env) (st : MState)
    (bm : BroadcastMessage) (hp : bm.persist = true)
    (hs : chanSubs st bm.channel = []) :
    (broadcastToChannel cfg env st bm).1 =
      persistMessage cfg env st bm.channel
        { type := "broadcast", channel := some bm.channel, event := some bm.event,
          payload := some bm.payload, message_id := some env.freshId,
          timestamp := env.now } ∧
    (broadcastToChannel cfg env st bm).2.1 = [] ∧
    (broadcastToChannel cfg env st bm).2.2 =
      { message_id := env.freshId, sent_count := 0, failed_count := 0 } ∧
    mget (broadcastToChannel cfg env st bm).1.lastActivity bm.channel =
      some env.now ∧
    ((mget (broadcastToChannel cfg env st bm).1.channelMessages bm.channel).getD
        []).head? =
      some (some { type := "broadcast", channel := some bm.channel,
                   event := some bm.event, payload := some bm.payload,
                   message_id := some env.freshId, timestamp := env.now }) := by
  obtain ⟨channel, event, payload, excl, incl, persist⟩ := bm
  simp only at hp hs ⊢
  subst hp
  have hs1 : chanSubs (persistMessage cfg env st channel
      { type := "broadcast", channel := some channel, event := some event,
        payload := some payload, message_id := some env.freshId,
        timestamp := env.now }) channel = [] := by
    unfold chanSubs
    rw [persistMessage_chan]
    exact hs
  have hmain : broadcastToChannel cfg env st
      { channel := channel, event := event, payload := payload,
        exclude_user_ids := excl, include_user_ids := incl, persist := true } =
      (persistMessage cfg env st channel
        { type := "broadcast", channel := some channel, event := some event,
          payload := some payload, message_id := some env.freshId,
          timestamp := env.now }, [],
       { message_id := env.freshId, sent_count := 0, failed_count := 0 }) := by
    unfold broadcastToChannel
    simp only [if_true]
    rw [resolveSubscribers_nil _ _ incl excl hs1]
    rfl
  refine ⟨?_, ?_, ?_, ?_, ?_⟩
  · rw [hmain]
  · rw [hmain]
  · rw [hmain]
  · rw [hmain]
    exact persist_lastActivity cfg env st channel _
  · rw [hmain]
    exact persist_head cfg env st channel _

/-- Witness for C10: a persisting broadcast to a channel nobody is
subscribed to, from the empty state. -/
theorem broadcast_no_subscribers_persists_witness :
    (broadcastToChannel {} {} {} { channel := "ch", event := "e", payload := "p" }).1 =
      persistMessage {} {} {} "ch"
        { type := "broadcast", channel := some "ch", event := some "e",
          payload := some "p", message_id := some "id", timestamp := 0 } ∧
    (broadcastToChannel {} {} {} { channel := "ch", event := "e", payload := "p" }).2.1 = [] ∧
    (broadcastToChannel {} {} {} { channel := "ch", event := "e", payload := "p" }).2.2 =
      { message_id := "id", sent_count := 0, failed_count := 0 } ∧
    mget (broadcastToChannel {} {} {} { channel := "ch", event := "e", payload := "p" }).1.lastActivity "ch" =
      some 0 ∧
    ((mget (broadcastToChannel {} {} {} { channel := "ch", event := "e", payload := "p" }).1.channelMessages "ch").getD
        []).head? =
      some (some { type := "broadcast", channel := some "ch", event := some "e",
                   payload := some "p", message_id := some "id", timestamp := 0 }) :=
  broadcast_no_subscribers_persists {} {} {} _ rfl rfl

/-- Witness for C8: pushing onto a full two-entry list under a cap of
two keeps the two newest entries and drops the oldest. -/
theorem persist_cap_oldest_dropped_witness :
    (mget (persistMessage { MAX_MESSAGES_PER_CHANNEL := 2 } {}
        { channelMessages := [("ch", [some { type := "m2" }, some { type := "m1" }])] }
        "ch" { type := "m3" }).channelMessages "ch").getD [] =
      (some { type := "m3" } ::
        (mget (MState.channelMessages
          { channelMessages := [("ch", [some { type := "m2" }, some { type := "m1" }])] }) "ch").getD []).take 2 ∧
    ((mget (persistMessage { MAX_MESSAGES_PER_CHANNEL := 2 } {}
        { channelMessages := [("ch", [some { type := "m2" }, some { type := "m1" }])] }
        "ch" { type := "m3" }).channelMessages "ch").getD []).length ≤ 2 ∧
    ((mget (persistMessage { MAX_MESSAGES_PER_CHANNEL := 2 } {}
        { channelMessages := [("ch", [some { type := "m2" }, some { type := "m1" }])] }
        "ch" { type := "m3" }).channelMessages "ch").getD []) ++
        (some { type := "m3" } ::
          (mget (MState.channelMessages
            { channelMessages := [("ch", [some { type := "m2" }, some { type := "m1" }])] }) "ch").getD []).drop 2 =
      some { type := "m3" } ::
        (mget (MState.channelMessages
          { channelMessages := [("ch", [some { type := "m2" }, some { type := "m1" }])] }) "ch").getD [] :=
  persist_cap_oldest_dropped _ _ _ _ _ (by decide)

end Realtime
